import Mathlib

/-!
Shallow embedding of the sibyls oracle HTTP query path (`src/main.rs`):
`make_api_response`, `parse_database_entry`, `execute_announcements`,
`execute_announcement`, the `announcements`/`announcement` handlers,
`Filters::default` and `PAGE_SIZE`.

Two views of the event store are embedded:

* a timestamp-level view (`EventStore`), in which maturation keys are
  modelled by their timestamps in seconds (`Ts := Int`).  The store's
  documented guarantee is that keys are fixed-width RFC3339 strings, so
  lexicographic byte order coincides with chronological order; this view
  abstracts the byte strings to the instants they denote.  `sled`'s
  `range(start..end)` is an ordered scan with inclusive start and
  exclusive end, embedded as `dropWhile`/`takeWhile` on the sorted
  entry list.

* a raw byte-string view (`RawStore`, `executeAnnouncement`,
  `executeAnnouncementsRaw`), in which keys are the literal strings and
  the external codecs (`OffsetDateTime::parse`/`format` of the `time`
  crate, `serde_json` deserialization of `DbValue`) are explicit
  function parameters; `none` models a panicking `unwrap`.
-/

/-- Maturation timestamps, in seconds (the granularity of RFC3339 keys). -/
abbrev Ts := Int

/-- `time::Duration::days(n)` measured in seconds. -/
def days (n : Int) : Int := n * 86400

/-- `const PAGE_SIZE: u32 = 100;` -/
def PAGE_SIZE : Nat := 100

/-- `let start = filters.page * PAGE_SIZE;` — `u32` multiplication, which
wraps modulo `2^32`. -/
def startOffset (page : Nat) : Nat := (page * PAGE_SIZE) % 2 ^ 32

/-- `enum SortOrder { Insertion, ReverseInsertion }` -/
inductive SortOrder where
  | insertion
  | reverseInsertion
deriving DecidableEq, Repr

/-- `AssetPair` — closed enumeration of supported trading pairs
(`BTCUSD` is the one the binary references). -/
inductive AssetPair where
  | btcusd
deriving DecidableEq, Repr

/-- `Display` for `AssetPair` (used in error messages). -/
def AssetPair.display : AssetPair → String
  | AssetPair.btcusd => "BTCUSD"

/-- `struct Filters { sort_by, page, asset_pair }` -/
structure Filters where
  sortBy : SortOrder
  page : Nat
  assetPair : AssetPair
deriving DecidableEq, Repr

/-- `impl Default for Filters` -/
def Filters.default : Filters :=
  { sortBy := SortOrder.reverseInsertion
    page := 0
    assetPair := AssetPair.btcusd }

/-- The stored `DbValue` record: `(nonce data, announcement bytes,
optional attestation bytes, optional outcome)`; only fields `.1`–`.3`
are read by the query path. -/
structure DbValue where
  announcement : List Nat
  attestation : Option (List Nat)
  outcome : Option Nat
deriving DecidableEq, Repr

/-- `struct ApiOracleEvent` with `maturation` abstracted to its
timestamp. -/
structure ApiOracleEvent where
  assetPair : AssetPair
  announcement : List Nat
  attestation : Option (List Nat)
  maturation : Ts
  outcome : Option Nat
deriving DecidableEq, Repr

/-- The JSON envelope produced by `make_api_response`: an HTTP status and
a body having exactly the two fields `result` and `error`. -/
structure ApiResponse (T : Type) where
  status : Nat
  result : Option T
  error : Option String
deriving DecidableEq, Repr

/-- `make_api_response`: always `HttpResponse::Ok()` (HTTP 200) with body
`{"result": result, "error": error}`. -/
def makeApiResponse {T : Type} (result : Option T) (error : Option String) :
    ApiResponse T :=
  { status := 200, result := result, error := error }

/-- `parse_database_entry` on an already-deserialized entry of the
timestamp-level store (hex encoding of the byte fields is elided). -/
def parseDatabaseEntry (assetPair : AssetPair) (entry : Ts × DbValue) :
    ApiOracleEvent :=
  { assetPair := assetPair
    announcement := entry.2.announcement
    attestation := entry.2.attestation
    maturation := entry.1
    outcome := entry.2.outcome }

/-- The timestamp-level view of one asset pair's sled tree
(`oracle.event_database`): its entries in ascending key order. -/
structure EventStore where
  entries : List (Ts × DbValue)
deriving DecidableEq, Repr

namespace EventStore

/-- Keys strictly ascend (sled stores keys in sorted order and the
scheduler appends strictly increasing maturations). -/
def Sorted (s : EventStore) : Prop :=
  s.entries.Pairwise (fun a b => a.1 < b.1)

instance (s : EventStore) : Decidable s.Sorted := by
  unfold Sorted; infer_instance

/-- `Tree::is_empty`. -/
def isEmpty (s : EventStore) : Bool := s.entries.isEmpty

/-- `Tree::first` — least key–value pair. -/
def first (s : EventStore) : Option (Ts × DbValue) := s.entries.head?

/-- `Tree::last` — greatest key–value pair. -/
def last (s : EventStore) : Option (Ts × DbValue) := s.entries.getLast?

/-- `Tree::range(lo..hi)` — ordered scan, inclusive start, exclusive
end: skip the prefix below `lo`, then yield while below `hi`. -/
def range (s : EventStore) (lo hi : Ts) : List (Ts × DbValue) :=
  (s.entries.dropWhile (fun e => decide (e.1 < lo))).takeWhile
    (fun e => decide (e.1 < hi))

end EventStore

/-- The oracle map passed to the handlers
(`HashMap<AssetPair, Oracle>`), restricted to the event database. -/
def lookupOracle (oracles : List (AssetPair × EventStore)) (pair : AssetPair) :
    Option EventStore :=
  (oracles.find? (fun o => o.1 = pair)).map (·.2)

/-- The page window of the C2 claim taken at its word: offsets
`page * 100` and `(page + 1) * 100` days in exact (non-wrapping)
arithmetic, applied to the current first key.  To be compared with
`pageInsertion`, whose offset is the `u32` product `startOffset`. -/
def specPageInsertion (s : EventStore) (page : Nat) : List (Ts × DbValue) :=
  match s.first with
  | none => []
  | some e =>
    s.entries.filter (fun x =>
      decide (e.1 + days (page * 100) ≤ x.1) &&
      decide (x.1 < e.1 + days ((page + 1) * 100)))


/-- The `SortOrder::Insertion` window bounds of `execute_announcements`:
`start_key = first + days(start)`, `end_key = start_key + days(PAGE_SIZE)`. -/
def insertionWindow (firstKey : Ts) (page : Nat) : Ts × Ts :=
  let startKey := firstKey + days (startOffset page)
  (startKey, startKey + days PAGE_SIZE)

/-- The `SortOrder::ReverseInsertion` window bounds:
`end_key = last - days(start)`, `start_key = end_key - days(PAGE_SIZE)`. -/
def reverseWindow (lastKey : Ts) (page : Nat) : Ts × Ts :=
  let endKey := lastKey - days (startOffset page)
  (endKey - days PAGE_SIZE, endKey)

/-- The entries the `Insertion` branch scans from a stable store at page
`page` (empty store never reaches this branch; `[]` then). -/
def pageInsertion (s : EventStore) (page : Nat) : List (Ts × DbValue) :=
  match s.first with
  | none => []
  | some e =>
    let w := insertionWindow e.1 page
    s.range w.1 w.2

/-- The entries the `ReverseInsertion` branch scans from a stable store
at page `page`. -/
def pageReverse (s : EventStore) (page : Nat) : List (Ts × DbValue) :=
  match s.last with
  | none => []
  | some e =>
    let w := reverseWindow e.1 page
    s.range w.1 w.2

/-- `execute_announcements` against a stable (non-mutating) store: the
optimistic loop's boundary re-read necessarily agrees, so the first
iteration returns.  (The loop itself is `loopInsertion`/`loopReverse`
below.) -/
def executeAnnouncements (oracles : List (AssetPair × EventStore))
    (filters : Filters) : ApiResponse (List ApiOracleEvent) :=
  match lookupOracle oracles filters.assetPair with
  | none =>
    makeApiResponse none
      (some ("asset pair " ++ filters.assetPair.display ++ " not recorded"))
  | some oracle =>
    if oracle.isEmpty then
      makeApiResponse (some []) none
    else
      match filters.sortBy with
      | SortOrder.insertion =>
        makeApiResponse
          (some ((pageInsertion oracle filters.page).map
            (parseDatabaseEntry filters.assetPair))) none
      | SortOrder.reverseInsertion =>
        makeApiResponse
          (some ((pageReverse oracle filters.page).map
            (parseDatabaseEntry filters.assetPair))) none

/-- The `GET /v1/announcements` handler: `execute_announcements` never
returns `Err` against a stable store, so the handler returns its value
directly (the `Err` arm is exercised only by storage faults, which the
embedding leaves out). -/
def announcementsHandler (oracles : List (AssetPair × EventStore))
    (filters : Filters) : ApiResponse (List ApiOracleEvent) :=
  executeAnnouncements oracles filters

/-! ### The optimistic retry loop, against a store that may mutate

Reads of the shared sled tree are indexed by the instant at which they
happen: iteration `i` of the loop reads the boundary key at instant
`3*i`, re-reads it at instant `3*i + 1` and, if the two keys agree,
scans the range at instant `3*i + 2`.  `fuel` bounds the unrolling (the
Rust `loop` is unbounded); running out of fuel or hitting a panicking
`unwrap` (boundary read of an empty tree) is `none`. -/

/-- The `SortOrder::Insertion` arm of `execute_announcements`' `loop`. -/
def loopInsertion (store : Nat → EventStore) (page : Nat) :
    Nat → Nat → Option (List (Ts × DbValue))
  | 0, _ => none
  | fuel + 1, i =>
    match (store (3 * i)).first, (store (3 * i + 1)).first with
    | some e, some e' =>
      if e.1 = e'.1 then
        let w := insertionWindow e.1 page
        some ((store (3 * i + 2)).range w.1 w.2)
      else
        loopInsertion store page fuel (i + 1)
    | _, _ => none

/-- The `SortOrder::ReverseInsertion` arm of the `loop`. -/
def loopReverse (store : Nat → EventStore) (page : Nat) :
    Nat → Nat → Option (List (Ts × DbValue))
  | 0, _ => none
  | fuel + 1, i =>
    match (store (3 * i)).last, (store (3 * i + 1)).last with
    | some e, some e' =>
      if e.1 = e'.1 then
        let w := reverseWindow e.1 page
        some ((store (3 * i + 2)).range w.1 w.2)
      else
        loopReverse store page fuel (i + 1)
    | _, _ => none

/-! ### The raw byte-string view: `execute_announcement` (point lookup)

Keys are the literal RFC3339 strings; `parseTs` stands for the `time`
crate's `OffsetDateTime::parse(_, &Rfc3339)` (`none` = parse error).
Values are kept as already-deserialized `DbValue`s here — the
deserialization failure mode is modelled separately in
`executeAnnouncementsRaw`. -/

/-- One asset pair's sled tree with literal string keys. -/
structure RawStore where
  entries : List (String × DbValue)
deriving DecidableEq, Repr

/-- `Tree::is_empty`. -/
def RawStore.isEmpty (s : RawStore) : Bool := s.entries.isEmpty

/-- `Tree::get(key)` — point read at the exact byte-string key. -/
def RawStore.get (s : RawStore) (k : String) : Option DbValue :=
  (s.entries.find? (fun e => e.1 == k)).map (·.2)

/-- `ApiOracleEvent` with the literal `maturation` string. -/
structure RawApiOracleEvent where
  assetPair : AssetPair
  announcement : List Nat
  attestation : Option (List Nat)
  maturation : String
  outcome : Option Nat
deriving DecidableEq, Repr

/-- `parse_database_entry` on a raw-keyed entry. -/
def rawParseDatabaseEntry (assetPair : AssetPair) (maturation : String)
    (v : DbValue) : RawApiOracleEvent :=
  { assetPair := assetPair
    announcement := v.announcement
    attestation := v.attestation
    maturation := maturation
    outcome := v.outcome }

/-- `HashMap::get` on the oracle map (raw view). -/
def rawLookupOracle (oracles : List (AssetPair × RawStore)) (pair : AssetPair) :
    Option RawStore :=
  (oracles.find? (fun o => o.1 == pair)).map (·.2)

/-- `execute_announcement`: validate the path segment as RFC3339 (the
`?` propagates a parse failure as `Err`), find the oracle, then point
read at the *original* string's bytes. -/
def executeAnnouncement (parseTs : String → Option Ts)
    (oracles : List (AssetPair × RawStore)) (filters : Filters)
    (rfc3339Time : String) : Except String (ApiResponse RawApiOracleEvent) :=
  match parseTs rfc3339Time with
  | none => Except.error ("could not parse " ++ rfc3339Time)
  | some _ =>
    match rawLookupOracle oracles filters.assetPair with
    | none =>
      Except.ok (makeApiResponse none
        (some ("asset pair " ++ filters.assetPair.display ++ " not recorded")))
    | some oracle =>
      if oracle.isEmpty then
        Except.error
          ("oracle event with maturation " ++ rfc3339Time ++ " not found")
      else
        match oracle.get rfc3339Time with
        | none =>
          Except.error
            ("oracle event with maturation " ++ rfc3339Time ++ " not found")
        | some event =>
          Except.ok (makeApiResponse
            (some (rawParseDatabaseEntry filters.assetPair rfc3339Time event))
            none)

/-- The `GET /v1/announcement/{rfc3339_time}` handler: an `Err` from
`execute_announcement` becomes `make_api_response(None, Some(err))`. -/
def announcementHandler (parseTs : String → Option Ts)
    (oracles : List (AssetPair × RawStore)) (filters : Filters)
    (rfc3339Time : String) : ApiResponse RawApiOracleEvent :=
  match executeAnnouncement parseTs oracles filters rfc3339Time with
  | Except.ok v => v
  | Except.error e => makeApiResponse none (some e)

/-! ### The fully raw view: `execute_announcements` with explicit codecs

Keys *and* values are literal strings; `parseTs`/`fmtTs` stand for the
`time` crate's RFC3339 parse/format and `parseVal` for
`serde_json::from_str::<DbValue>`.  A `none` result models a panicking
`unwrap` (`execute_announcements` line 114/141 on the boundary key,
`parse_database_entry` line 80 on a value). -/

/-- Raw entry list of one sled tree, in ascending byte order of keys. -/
abbrev StrEntries := List (String × String)

/-- Lexicographic order on character sequences (sled compares keys as
byte strings; on these ASCII keys char order and byte order agree). -/
def byteLt : List Char → List Char → Bool
  | _, [] => false
  | [], _ :: _ => true
  | a :: as, b :: bs =>
    if a.toNat < b.toNat then true
    else if b.toNat < a.toNat then false
    else byteLt as bs

/-- Lexicographic byte order on keys. -/
def strLt (a b : String) : Bool := byteLt a.data b.data

/-- `Tree::range(lo..hi)` over raw entries: skip below `lo`, yield
while below `hi` (lexicographic byte order). -/
def rawRange (l : StrEntries) (lo hi : String) : StrEntries :=
  (l.dropWhile (fun e => strLt e.1 lo)).takeWhile
    (fun e => strLt e.1 hi)

/-- `HashMap::get` on the oracle map (fully raw view). -/
def strLookupOracle (oracles : List (AssetPair × StrEntries))
    (pair : AssetPair) : Option StrEntries :=
  (oracles.find? (fun o => o.1 == pair)).map (·.2)

/-- The boundary entry a sort order reads: `first()` for `Insertion`,
`last()` for `ReverseInsertion`. -/
def rawBoundary (store : StrEntries) : SortOrder → Option (String × String)
  | SortOrder.insertion => store.head?
  | SortOrder.reverseInsertion => store.getLast?

/-- The window bounds a sort order computes from the parsed boundary
timestamp `t0`. -/
def rawWindow (t0 : Ts) (page : Nat) : SortOrder → Ts × Ts
  | SortOrder.insertion =>
    (t0 + days (startOffset page), t0 + days (startOffset page) + days PAGE_SIZE)
  | SortOrder.reverseInsertion =>
    (t0 - days (startOffset page) - days PAGE_SIZE, t0 - days (startOffset page))

/-- Sequential traversal collecting `Option` results: the iterator's
`map(.. unwrap())/collect`, where any single failure is a panic
(`none`). -/
def mapMOption {A B : Type} (f : A -> Option B) : List A -> Option (List B)
  | [] => some []
  | a :: l =>
    match f a with
    | none => none
    | some b =>
      match mapMOption f l with
      | none => none
      | some bs => some (b :: bs)

/-- `execute_announcements` at the raw level, against a stable store;
`none` models a panic of one of its `unwrap`s. -/
def executeAnnouncementsRaw (parseTs : String → Option Ts) (fmtTs : Ts → String)
    (parseVal : String → Option DbValue)
    (oracles : List (AssetPair × StrEntries)) (filters : Filters) :
    Option (ApiResponse (List RawApiOracleEvent)) :=
  match strLookupOracle oracles filters.assetPair with
  | none =>
    some (makeApiResponse none
      (some ("asset pair " ++ filters.assetPair.display ++ " not recorded")))
  | some store =>
    if store.isEmpty then
      some (makeApiResponse (some []) none)
    else
      match filters.sortBy with
      | SortOrder.insertion =>
        match store.head? with
        | none => none
        | some e0 =>
          match parseTs e0.1 with
          | none => none
          | some t0 =>
            let startKey := fmtTs (t0 + days (startOffset filters.page))
            let endKey :=
              fmtTs (t0 + days (startOffset filters.page) + days PAGE_SIZE)
            match mapMOption (fun e =>
                (parseVal e.2).map
                  (rawParseDatabaseEntry filters.assetPair e.1))
                (rawRange store startKey endKey) with
            | none => none
            | some events => some (makeApiResponse (some events) none)
      | SortOrder.reverseInsertion =>
        match store.getLast? with
        | none => none
        | some e0 =>
          match parseTs e0.1 with
          | none => none
          | some t0 =>
            let endKey := fmtTs (t0 - days (startOffset filters.page))
            let startKey :=
              fmtTs (t0 - days (startOffset filters.page) - days PAGE_SIZE)
            match mapMOption (fun e =>
                (parseVal e.2).map
                  (rawParseDatabaseEntry filters.assetPair e.1))
                (rawRange store startKey endKey) with
            | none => none
            | some events => some (makeApiResponse (some events) none)

/-! ### Concrete sample data for witnesses and counterexamples -/

/-- A pending stored value. -/
def vA : DbValue := { announcement := [1, 2], attestation := none, outcome := none }

/-- An attested stored value. -/
def vB : DbValue :=
  { announcement := [3], attestation := some [4], outcome := some 30000 }

/-- A store holding a single event at timestamp 0. -/
def oneStore : EventStore := { entries := [(0, vA)] }

/-- A store holding two events, the second 150 days after the first. -/
def twoStore : EventStore := { entries := [(0, vA), (days 150, vB)] }

/-- An oracle map with the one-event BTCUSD store. -/
def oneOracles : List (AssetPair × EventStore) := [(AssetPair.btcusd, oneStore)]

/-- An oracle map with the two-event BTCUSD store. -/
def twoOracles : List (AssetPair × EventStore) := [(AssetPair.btcusd, twoStore)]

/-- An oracle map whose BTCUSD store is empty. -/
def emptyOracles : List (AssetPair × EventStore) :=
  [(AssetPair.btcusd, { entries := [] })]

/-- `Filters` selecting `Insertion`, page 0, BTCUSD. -/
def insFilters : Filters :=
  { sortBy := SortOrder.insertion, page := 0, assetPair := AssetPair.btcusd }

/-- The epoch instant in its `Z` spelling. -/
def keyZ : String := "1970-01-01T00:00:00Z"

/-- The epoch instant in its `+00:00` spelling: a different byte string
denoting the same instant as `keyZ`. -/
def keyOffset : String := "1970-01-01T00:00:00+00:00"

/-- A concrete stand-in for `OffsetDateTime::parse(_, &Rfc3339)` at the
witnesses' inputs: both sample spellings denote instant 0. -/
def exParse (s : String) : Option Ts :=
  if s = keyZ then some 0 else if s = keyOffset then some 0 else none

/-- A concrete stand-in for RFC3339 formatting at the witnesses'
inputs. -/
def exFmt (t : Ts) : String :=
  if t = 0 then keyZ
  else if t = days 100 then "1970-04-11T00:00:00Z"
  else "9999-12-31T23:59:59Z"

/-- A concrete stand-in for `serde_json::from_str::<DbValue>` at the
witnesses' inputs. -/
def exParseVal (s : String) : Option DbValue :=
  if s = "good-json" then some vA else none

/-- A raw-keyed store holding one event at the `Z`-spelled epoch key. -/
def rawOne : RawStore := { entries := [(keyZ, vA)] }

/-- An oracle map (raw view) with the one-event BTCUSD store. -/
def rawOracles : List (AssetPair × RawStore) := [(AssetPair.btcusd, rawOne)]

/-- A fully raw store holding one well-formed entry. -/
def strOne : StrEntries := [(keyZ, "good-json")]

/-- An oracle map (fully raw view) with the one-entry BTCUSD store. -/
def strOracles : List (AssetPair × StrEntries) := [(AssetPair.btcusd, strOne)]

/-- A mutating store history: the scheduler appends a second, later
event after the first read, so the store changes during the query while
its *first* key stays fixed. -/
def growStore : Nat → EventStore := fun n =>
  if n = 0 then oneStore else twoStore
/-- On a sorted list, `takeWhile (· < hi)` is `filter (· < hi)`. -/
theorem takeWhile_lt_eq_filter (hi : Ts) :
    ∀ l : List (Ts × DbValue), l.Pairwise (fun a b => a.1 < b.1) →
      l.takeWhile (fun e => decide (e.1 < hi)) =
        l.filter (fun e => decide (e.1 < hi))
  | [], _ => rfl
  | x :: xs, hl => by
    rcases List.pairwise_cons.mp hl with ⟨hx, hxs⟩
    by_cases hxlt : x.1 < hi
    · simp only [List.takeWhile_cons, List.filter_cons, hxlt, decide_True]
      simp [takeWhile_lt_eq_filter hi xs hxs]
    · have hnone : ∀ y ∈ xs, ¬ y.1 < hi := by
        intro y hy hylt
        exact hxlt (lt_trans (hx y hy) hylt)
      simp only [List.takeWhile_cons, List.filter_cons]
      simp only [hxlt, decide_False]
      simp only [Bool.false_eq_true, if_false]
      symm
      rw [List.filter_eq_nil_iff]
      intro y hy
      simpa using hnone y hy

/-- On a sorted list, the inclusive-start/exclusive-end scan
`dropWhile (· < lo)` then `takeWhile (· < hi)` yields exactly the
entries whose key lies in the half-open window `[lo, hi)`. -/
theorem scan_eq_filter (lo hi : Ts) :
    ∀ l : List (Ts × DbValue), l.Pairwise (fun a b => a.1 < b.1) →
      (l.dropWhile (fun e => decide (e.1 < lo))).takeWhile
          (fun e => decide (e.1 < hi)) =
        l.filter (fun e => decide (lo ≤ e.1) && decide (e.1 < hi))
  | [], _ => rfl
  | x :: xs, hl => by
    rcases List.pairwise_cons.mp hl with ⟨hx, hxs⟩
    by_cases hxlo : x.1 < lo
    · have hnle : ¬ lo ≤ x.1 := not_le.mpr hxlo
      simp only [List.dropWhile_cons, List.filter_cons, hxlo, hnle,
        decide_True, decide_False, Bool.false_and, if_true]
      simp only [Bool.false_eq_true, if_false]
      exact scan_eq_filter lo hi xs hxs
    · have hge : lo ≤ x.1 := not_lt.mp hxlo
      have hall : ∀ y ∈ xs, lo ≤ y.1 := fun y hy =>
        le_of_lt (lt_of_le_of_lt hge (hx y hy))
      simp only [List.dropWhile_cons, hxlo, decide_False,
        Bool.false_eq_true, if_false]
      by_cases hxhi : x.1 < hi
      · simp only [List.takeWhile_cons, List.filter_cons, hxhi, hge,
          decide_True, Bool.true_and, if_true]
        rw [takeWhile_lt_eq_filter hi xs hxs]
        congr 1
        apply List.filter_congr
        intro y hy
        simp [hall y hy]
      · simp only [List.takeWhile_cons, List.filter_cons, hxhi, decide_False,
          Bool.and_false, Bool.false_eq_true, if_false]
        symm
        rw [List.filter_eq_nil_iff]
        intro y hy
        have : ¬ y.1 < hi := fun hylt =>
          hxhi (lt_trans (hx y hy) hylt)
        simp [this]

/-- `range` on a sorted store is the window filter. -/
theorem range_eq_filter (s : EventStore) (hs : s.Sorted) (lo hi : Ts) :
    s.range lo hi =
      s.entries.filter (fun e => decide (lo ≤ e.1) && decide (e.1 < hi)) :=
  scan_eq_filter lo hi s.entries hs

/-- C7: a request that omits query parameters gets the defaults
`sort_by = ReverseInsertion`, `page = 0`, `asset_pair = BTCUSD`
(`#[serde(default)]` on `Filters` with `impl Default for Filters`), and
the page size is the fixed `PAGE_SIZE = 100` time units. -/
theorem c7_default_filters :
    Filters.default.sortBy = SortOrder.reverseInsertion ∧
    Filters.default.page = 0 ∧
    Filters.default.assetPair = AssetPair.btcusd ∧
    PAGE_SIZE = 100 :=
  ⟨rfl, rfl, rfl, rfl⟩

/-- C10: `start = page * PAGE_SIZE` is a `u32` product, so for every
page above `⌊u32::MAX / 100⌋ = 42949672` the product exceeds `2^32` and
the offset actually used is reduced modulo `2^32`; in particular the
distinct pages `2^30` and `0` select the same time window (and hence
the same query result) on every store, for either sort order. -/
theorem c10_u32_page_offset_wraps :
    (∀ p : Nat, 42949672 < p →
      2 ^ 32 ≤ p * PAGE_SIZE ∧ startOffset p ≠ p * PAGE_SIZE) ∧
    42949672 * PAGE_SIZE < 2 ^ 32 ∧
    (2 ^ 30 : Nat) ≠ 0 ∧
    ∀ s : EventStore,
      pageInsertion s (2 ^ 30) = pageInsertion s 0 ∧
      pageReverse s (2 ^ 30) = pageReverse s 0 := by
  have hso : startOffset 1073741824 = startOffset 0 := by decide
  refine ⟨?_, by decide, by decide, ?_⟩
  · intro p hp
    have h1 : 2 ^ 32 ≤ p * PAGE_SIZE := by
      calc (2 : Nat) ^ 32 ≤ 42949673 * PAGE_SIZE := by decide
        _ ≤ p * PAGE_SIZE := Nat.mul_le_mul_right _ hp
    refine ⟨h1, ?_⟩
    unfold startOffset PAGE_SIZE at *
    omega
  · intro s
    constructor
    · unfold pageInsertion
      cases s.first with
      | none => rfl
      | some e => simp [insertionWindow, hso]
    · unfold pageReverse
      cases s.last with
      | none => rfl
      | some e => simp [reverseWindow, hso]

/-- C10 witness: the wrap is real at page `42949673`, and pages `2^30`
and `0` agree on the sample store. -/
theorem c10_witness :
    (2 ^ 32 ≤ 42949673 * PAGE_SIZE ∧
      startOffset 42949673 ≠ 42949673 * PAGE_SIZE) ∧
    pageInsertion oneStore (2 ^ 30) = pageInsertion oneStore 0 :=
  ⟨c10_u32_page_offset_wraps.1 42949673 (by decide),
   (c10_u32_page_offset_wraps.2.2.2 oneStore).1⟩

/-- C3: both handlers always answer HTTP 200 with a body of exactly the
fields `result` and `error` (the `ApiResponse` record), and the error
field is non-null exactly when the result is null — failures are never
signalled through the status code. -/
theorem c3_http_200_envelope :
    (∀ (oracles : List (AssetPair × EventStore)) (filters : Filters),
      (announcementsHandler oracles filters).status = 200 ∧
      ((announcementsHandler oracles filters).error.isSome ↔
        (announcementsHandler oracles filters).result = none)) ∧
    (∀ (parseTs : String → Option Ts) (oracles : List (AssetPair × RawStore))
        (filters : Filters) (t : String),
      (announcementHandler parseTs oracles filters t).status = 200 ∧
      ((announcementHandler parseTs oracles filters t).error.isSome ↔
        (announcementHandler parseTs oracles filters t).result = none)) := by
  constructor
  · intro oracles filters
    unfold announcementsHandler executeAnnouncements
    cases hlk : lookupOracle oracles filters.assetPair with
    | none => simp [makeApiResponse]
    | some oracle =>
      cases he : oracle.isEmpty with
      | true => simp [he, makeApiResponse]
      | false => cases filters.sortBy <;> simp [he, makeApiResponse]
  · intro parseTs oracles filters t
    unfold announcementHandler executeAnnouncement
    cases hp : parseTs t with
    | none => simp [makeApiResponse]
    | some τ =>
      cases hlk : rawLookupOracle oracles filters.assetPair with
      | none => simp [makeApiResponse]
      | some oracle =>
        cases he : oracle.isEmpty with
        | true => simp [he, makeApiResponse]
        | false =>
          cases hg : oracle.get t with
          | none => simp [he, hg, makeApiResponse]
          | some v => simp [he, hg, makeApiResponse]

/-- C1 is refuted by the code: the `ReverseInsertion` branch scans
`range(last - (page+1)*100d .. last - page*100d)` with an *exclusive*
upper bound, and at page 0 that bound is the latest key itself, so the
event at the store's latest key appears in no `ReverseInsertion` page.
Conjunct 1: the one-event store is non-empty; conjunct 2: all of its
`ReverseInsertion` pages are nevertheless empty; conjunct 3: on every
store, no `ReverseInsertion` page ever contains the `last()` entry. -/
theorem c1_latest_event_in_no_reverse_page :
    oneStore.entries ≠ [] ∧
    (∀ page : Nat, pageReverse oneStore page = []) ∧
    ∀ (s : EventStore) (page : Nat),
      (pageReverse s page).all (fun e => s.last != some e) = true := by
  refine ⟨by decide, ?_, ?_⟩
  · intro page
    have hl : oneStore.last = some ((0 : Ts), vA) := by rfl
    have hd : (0 : Int) ≤ days (startOffset page) := by
      unfold days
      positivity
    rw [List.eq_nil_iff_forall_not_mem]
    intro e he
    simp only [pageReverse, hl, reverseWindow, EventStore.range] at he
    have hkey := List.mem_takeWhile_imp he
    simp only [decide_eq_true_eq] at hkey
    have hmem : e ∈ oneStore.entries :=
      (List.dropWhile_sublist _).subset ((List.takeWhile_sublist _).subset he)
    have he0 : e = ((0 : Ts), vA) := by simpa [oneStore] using hmem
    rw [he0] at hkey
    simp only at hkey
    linarith
  · intro s page
    rw [List.all_eq_true]
    cases hl : s.last with
    | none =>
      intro e he
      simp only [pageReverse, hl] at he
      simp at he
    | some l0 =>
      intro e he
      simp only [pageReverse, hl, reverseWindow, EventStore.range] at he
      have hkey := List.mem_takeWhile_imp he
      simp only [decide_eq_true_eq] at hkey
      have hd : (0 : Int) ≤ days (startOffset page) := by
        unfold days
        positivity
      simp only [hl, bne_iff_ne, ne_eq, Option.some.injEq]
      intro h
      rw [h] at hkey
      linarith

/-- A range scan of a sorted store is itself sorted (it is a sublist). -/
theorem range_pairwise (s : EventStore) (hs : s.Sorted) (lo hi : Ts) :
    (s.range lo hi).Pairwise (fun a b => a.1 < b.1) := by
  rw [range_eq_filter s hs lo hi]
  exact hs.sublist (List.filter_sublist _)

/-- C9: for both sort orders the entries *within* a returned page are in
ascending maturation order — `range(start..end)` always iterates the
tree upward; `ReverseInsertion` only moves the window, it never reverses
the entries. -/
theorem c9_pages_ascending_within (s : EventStore) (hs : s.Sorted)
    (page : Nat) :
    ((pageReverse s page).map (·.1)).Pairwise (· < ·) ∧
    ((pageInsertion s page).map (·.1)).Pairwise (· < ·) := by
  constructor
  · unfold pageReverse
    cases s.last with
    | none => simp
    | some e =>
      rw [List.pairwise_map]
      exact range_pairwise s hs _ _
  · unfold pageInsertion
    cases s.first with
    | none => simp
    | some e =>
      rw [List.pairwise_map]
      exact range_pairwise s hs _ _

/-- C9 witness: within-page ascending order evaluated on the two-event
store (reverse page 1 and insertion page 0). -/
theorem c9_witness :
    twoStore.Sorted ∧
    ((pageReverse twoStore 1).map (·.1)).Pairwise (· < ·) ∧
    ((pageInsertion twoStore 0).map (·.1)).Pairwise (· < ·) :=
  ⟨by decide,
   (c9_pages_ascending_within twoStore (by decide) 1).1,
   (c9_pages_ascending_within twoStore (by decide) 0).2⟩

/-- C2 as stated is false: it reads the page offset as the exact product
`page * 100` days, but the code computes it in `u32` arithmetic.  At
page `2^30` the product `2^30 * 100 = 25 * 2^32` wraps to offset 0, so
on the one-event store the code returns the event while the claimed
window `[first + 2^30*100 days, …)` contains nothing. -/
theorem c2_counterexample :
    (executeAnnouncements oneOracles
        { sortBy := SortOrder.insertion, page := 2 ^ 30,
          assetPair := AssetPair.btcusd }).result ≠
      some ((specPageInsertion oneStore (2 ^ 30)).map
        (parseDatabaseEntry AssetPair.btcusd)) := by
  decide

/-- C2 amended: the list query returns exactly the stored events in the
half-open window whose offset is the `u32`-wrapped
`startOffset page = (page * 100) mod 2^32` days from the current
first/last key — `[first + w, first + w + 100d)` for `Insertion` and
`[last - w - 100d, last - w)` for `ReverseInsertion` (with `w` in days);
for `page ≤ 42949672` this agrees with the claim's exact `page * 100`. -/
theorem c2_window_characterization (oracles : List (AssetPair × EventStore))
    (filters : Filters) (store : EventStore)
    (hlk : lookupOracle oracles filters.assetPair = some store)
    (hs : store.Sorted) (hne : store.entries ≠ []) :
    (∀ e0, filters.sortBy = SortOrder.insertion → store.first = some e0 →
      executeAnnouncements oracles filters =
        makeApiResponse
          (some ((store.entries.filter (fun x =>
            decide (e0.1 + days (startOffset filters.page) ≤ x.1) &&
            decide (x.1 < e0.1 + days (startOffset filters.page) +
              days PAGE_SIZE))).map (parseDatabaseEntry filters.assetPair)))
          none) ∧
    (∀ e0, filters.sortBy = SortOrder.reverseInsertion → store.last = some e0 →
      executeAnnouncements oracles filters =
        makeApiResponse
          (some ((store.entries.filter (fun x =>
            decide (e0.1 - days (startOffset filters.page) -
              days PAGE_SIZE ≤ x.1) &&
            decide (x.1 < e0.1 - days (startOffset filters.page)))).map
              (parseDatabaseEntry filters.assetPair)))
          none) := by
  have hempty : store.isEmpty = false := by
    unfold EventStore.isEmpty
    simpa [List.isEmpty_iff] using hne
  constructor
  · intro e0 hsort hfirst
    unfold executeAnnouncements
    rw [hlk]
    simp only [hempty, hsort, Bool.false_eq_true, if_false]
    unfold pageInsertion
    rw [hfirst]
    simp only [insertionWindow]
    rw [range_eq_filter store hs]
  · intro e0 hsort hlast
    unfold executeAnnouncements
    rw [hlk]
    simp only [hempty, hsort, Bool.false_eq_true, if_false]
    unfold pageReverse
    rw [hlast]
    simp only [reverseWindow]
    rw [range_eq_filter store hs]

/-- C2 witness: the amended window characterization evaluated on the
two-event store at `Insertion` page 0. -/
theorem c2_witness :
    executeAnnouncements twoOracles insFilters =
      makeApiResponse
        (some ((twoStore.entries.filter (fun x =>
          decide ((0 : Ts) + days (startOffset 0) ≤ x.1) &&
          decide (x.1 < (0 : Ts) + days (startOffset 0) + days PAGE_SIZE))).map
            (parseDatabaseEntry AssetPair.btcusd)))
        none :=
  (c2_window_characterization twoOracles insFilters twoStore rfl (by decide)
    (by decide)).1 ((0 : Ts), vA) rfl rfl

/-- C4 as stated is false for empty list results: on an empty store the
list endpoint returns `result = []` with `error = null` — a success
envelope (`make_api_response(Some(Vec::new()), None)`), not a structured
error. -/
theorem c4_counterexample :
    (announcementsHandler emptyOracles Filters.default).error = none ∧
    (announcementsHandler emptyOracles Filters.default).result = some [] := by
  constructor <;> rfl

/-- C4 amended: unknown asset pair (either endpoint), malformed
timestamp in a point lookup, and a point lookup at an absent key are all
reported as a non-null `error` with `result` null; but a list query
whose result set is empty — in particular on an empty store — returns a
success with `result = []` and `error` null. -/
theorem c4_error_reporting (oracles : List (AssetPair × EventStore))
    (rawOrcs : List (AssetPair × RawStore)) (parseTs : String → Option Ts)
    (filters : Filters) (t : String) :
    (lookupOracle oracles filters.assetPair = none →
      (announcementsHandler oracles filters).error.isSome ∧
      (announcementsHandler oracles filters).result = none) ∧
    (rawLookupOracle rawOrcs filters.assetPair = none →
      (announcementHandler parseTs rawOrcs filters t).error.isSome ∧
      (announcementHandler parseTs rawOrcs filters t).result = none) ∧
    (parseTs t = none →
      (announcementHandler parseTs rawOrcs filters t).error.isSome ∧
      (announcementHandler parseTs rawOrcs filters t).result = none) ∧
    (∀ store, rawLookupOracle rawOrcs filters.assetPair = some store →
      store.get t = none →
      (announcementHandler parseTs rawOrcs filters t).error.isSome ∧
      (announcementHandler parseTs rawOrcs filters t).result = none) ∧
    (∀ store, lookupOracle oracles filters.assetPair = some store →
      store.entries = [] →
      announcementsHandler oracles filters =
        makeApiResponse (some []) none) := by
  refine ⟨?_, ?_, ?_, ?_, ?_⟩
  · intro hlk
    unfold announcementsHandler executeAnnouncements
    rw [hlk]
    simp [makeApiResponse]
  · intro hlk
    unfold announcementHandler executeAnnouncement
    cases hp : parseTs t with
    | none => simp [makeApiResponse]
    | some τ => rw [hlk]; simp [makeApiResponse]
  · intro hp
    unfold announcementHandler executeAnnouncement
    rw [hp]
    simp [makeApiResponse]
  · intro store hlk hget
    unfold announcementHandler executeAnnouncement
    cases hp : parseTs t with
    | none => simp [makeApiResponse]
    | some τ =>
      rw [hlk]
      cases hne : store.isEmpty with
      | true => simp [hne, makeApiResponse]
      | false => simp [hne, hget, makeApiResponse]
  · intro store hlk hentries
    have hempty : store.isEmpty = true := by
      unfold EventStore.isEmpty
      rw [hentries]
      rfl
    unfold announcementsHandler executeAnnouncements
    rw [hlk]
    simp [hempty]

/-- C4 witness: the amended clauses evaluated — unknown pair on the list
endpoint, malformed timestamp and absent key on the point endpoint, and
the empty-store list success. -/
theorem c4_witness :
    ((announcementsHandler [] Filters.default).error.isSome ∧
      (announcementsHandler [] Filters.default).result = none) ∧
    ((announcementHandler exParse rawOracles Filters.default "bogus").error.isSome ∧
      (announcementHandler exParse rawOracles Filters.default "bogus").result = none) ∧
    ((announcementHandler exParse rawOracles Filters.default keyOffset).error.isSome ∧
      (announcementHandler exParse rawOracles Filters.default keyOffset).result = none) ∧
    announcementsHandler emptyOracles Filters.default =
      makeApiResponse (some []) none :=
  ⟨(c4_error_reporting [] rawOracles exParse Filters.default "bogus").1 rfl,
   (c4_error_reporting [] rawOracles exParse Filters.default "bogus").2.2.1 (by decide),
   (c4_error_reporting [] rawOracles exParse Filters.default keyOffset).2.2.2.1
     rawOne rfl (by decide),
   (c4_error_reporting emptyOracles rawOracles exParse Filters.default
     keyOffset).2.2.2.2 { entries := [] } rfl rfl⟩

/-- C5: for a request string that parses as RFC3339, the point lookup
keys on the *exact* request bytes (`get(rfc3339_time.as_bytes())`,
never re-formatted): it returns the stored event when the key equals
the string exactly, and a not-found error otherwise — so a
differently-spelled string denoting the same instant as a stored key
still misses. -/
theorem c5_point_lookup_exact_key (parseTs : String → Option Ts)
    (oracles : List (AssetPair × RawStore)) (filters : Filters) (t : String)
    (store : RawStore)
    (hlk : rawLookupOracle oracles filters.assetPair = some store)
    (τ : Ts) (hp : parseTs t = some τ) :
    (∀ v, store.get t = some v →
      executeAnnouncement parseTs oracles filters t =
        Except.ok (makeApiResponse
          (some (rawParseDatabaseEntry filters.assetPair t v)) none)) ∧
    (store.get t = none →
      executeAnnouncement parseTs oracles filters t =
        Except.error ("oracle event with maturation " ++ t ++ " not found")) := by
  constructor
  · intro v hv
    have hne : store.isEmpty = false := by
      unfold RawStore.isEmpty
      cases hstore : store.entries with
      | nil =>
        unfold RawStore.get at hv
        rw [hstore] at hv
        simp at hv
      | cons a l => rfl
    unfold executeAnnouncement
    rw [hp, hlk]
    simp [hne, hv]
  · intro hv
    unfold executeAnnouncement
    rw [hp, hlk]
    cases hne : store.isEmpty with
    | true => simp [hne]
    | false => simp [hne, hv]

/-- C5 witness: the keys `1970-01-01T00:00:00Z` (stored) and
`1970-01-01T00:00:00+00:00` (same instant, different spelling): the
first is found, the second is reported not found. -/
theorem c5_witness :
    exParse keyZ = some 0 ∧ exParse keyOffset = some 0 ∧ keyZ ≠ keyOffset ∧
    executeAnnouncement exParse rawOracles Filters.default keyZ =
      Except.ok (makeApiResponse
        (some (rawParseDatabaseEntry AssetPair.btcusd keyZ vA)) none) ∧
    executeAnnouncement exParse rawOracles Filters.default keyOffset =
      Except.error
        ("oracle event with maturation " ++ keyOffset ++ " not found") :=
  ⟨by decide, by decide, by decide,
   (c5_point_lookup_exact_key exParse rawOracles Filters.default keyZ rawOne
     rfl 0 (by decide)).1 vA (by decide),
   (c5_point_lookup_exact_key exParse rawOracles Filters.default keyOffset
     rawOne rfl 0 (by decide)).2 (by decide)⟩

/-- Out of `some`, the `Insertion` loop only when an iteration's two
boundary reads agreed, and the page is computed from that key. -/
theorem loopInsertion_sound (store : Nat → EventStore) (page : Nat) :
    ∀ fuel i r, loopInsertion store page fuel i = some r →
      ∃ j e, i ≤ j ∧ (store (3 * j)).first = some e ∧
        ((store (3 * j + 1)).first.map (·.1)) = some e.1 ∧
        r = (store (3 * j + 2)).range (insertionWindow e.1 page).1
              (insertionWindow e.1 page).2
  | 0, i, r => by
    intro h
    simp [loopInsertion] at h
  | fuel + 1, i, r => by
    intro h
    unfold loopInsertion at h
    cases h1 : (store (3 * i)).first with
    | none =>
      rw [h1] at h
      cases h2 : (store (3 * i + 1)).first with
      | none => rw [h2] at h; simp at h
      | some e' => rw [h2] at h; simp at h
    | some e =>
      cases h2 : (store (3 * i + 1)).first with
      | none => rw [h1, h2] at h; simp at h
      | some e' =>
        rw [h1, h2] at h
        simp only at h
        by_cases heq : e.1 = e'.1
        · rw [if_pos heq] at h
          exact ⟨i, e, Nat.le_refl i, h1, by simp [h2, heq],
            (Option.some.inj h).symm⟩
        · rw [if_neg heq] at h
          obtain ⟨j, e'', hij, ha, hb, hr⟩ :=
            loopInsertion_sound store page fuel (i + 1) r h
          exact ⟨j, e'', Nat.le_trans (Nat.le_succ i) hij, ha, hb, hr⟩

/-- Out of `some`, the `ReverseInsertion` loop only when an iteration's
two boundary reads agreed, and the page is computed from that key. -/
theorem loopReverse_sound (store : Nat → EventStore) (page : Nat) :
    ∀ fuel i r, loopReverse store page fuel i = some r →
      ∃ j e, i ≤ j ∧ (store (3 * j)).last = some e ∧
        ((store (3 * j + 1)).last.map (·.1)) = some e.1 ∧
        r = (store (3 * j + 2)).range (reverseWindow e.1 page).1
              (reverseWindow e.1 page).2
  | 0, i, r => by
    intro h
    simp [loopReverse] at h
  | fuel + 1, i, r => by
    intro h
    unfold loopReverse at h
    cases h1 : (store (3 * i)).last with
    | none =>
      rw [h1] at h
      cases h2 : (store (3 * i + 1)).last with
      | none => rw [h2] at h; simp at h
      | some e' => rw [h2] at h; simp at h
    | some e =>
      cases h2 : (store (3 * i + 1)).last with
      | none => rw [h1, h2] at h; simp at h
      | some e' =>
        rw [h1, h2] at h
        simp only at h
        by_cases heq : e.1 = e'.1
        · rw [if_pos heq] at h
          exact ⟨i, e, Nat.le_refl i, h1, by simp [h2, heq],
            (Option.some.inj h).symm⟩
        · rw [if_neg heq] at h
          obtain ⟨j, e'', hij, ha, hb, hr⟩ :=
            loopReverse_sound store page fuel (i + 1) r h
          exact ⟨j, e'', Nat.le_trans (Nat.le_succ i) hij, ha, hb, hr⟩

/-- If only the *first key* stays fixed during execution — the store's
entries may change arbitrarily, as under concurrent scheduler appends —
the first iteration already returns: the page of the store as read at
scan time (`Insertion`; the code compares keys only). -/
theorem loopInsertion_stable (store : Nat → EventStore)
    (hc : ∀ n, (store n).first.map (·.1) = (store 0).first.map (·.1))
    (hne : (store 0).entries ≠ []) (page i : Nat) :
    loopInsertion store page 1 i =
      some (pageInsertion (store (3 * i + 2)) page) := by
  obtain ⟨x, xs, hx⟩ := List.exists_cons_of_ne_nil hne
  have h0 : (store 0).first = some x := by
    unfold EventStore.first
    rw [hx]
    rfl
  have h1 := hc (3 * i)
  have h2 := hc (3 * i + 1)
  have h3 := hc (3 * i + 2)
  rw [h0] at h1 h2 h3
  simp only [Option.map_some'] at h1 h2 h3
  obtain ⟨e1, he1, hk1⟩ := Option.map_eq_some'.mp h1
  obtain ⟨e2, he2, hk2⟩ := Option.map_eq_some'.mp h2
  obtain ⟨e3, he3, hk3⟩ := Option.map_eq_some'.mp h3
  unfold loopInsertion
  rw [he1, he2]
  simp [pageInsertion, he3, hk1, hk2, hk3]

/-- If only the *last key* stays fixed during execution, the first
iteration already returns the page of the store as read at scan time
(`ReverseInsertion`). -/
theorem loopReverse_stable (store : Nat → EventStore)
    (hc : ∀ n, (store n).last.map (·.1) = (store 0).last.map (·.1))
    (hne : (store 0).entries ≠ []) (page i : Nat) :
    loopReverse store page 1 i =
      some (pageReverse (store (3 * i + 2)) page) := by
  have hs0 : (store 0).last.isSome := by
    unfold EventStore.last
    rw [List.getLast?_isSome]
    exact hne
  obtain ⟨x, h0⟩ := Option.isSome_iff_exists.mp hs0
  have h1 := hc (3 * i)
  have h2 := hc (3 * i + 1)
  have h3 := hc (3 * i + 2)
  rw [h0] at h1 h2 h3
  simp only [Option.map_some'] at h1 h2 h3
  obtain ⟨e1, he1, hk1⟩ := Option.map_eq_some'.mp h1
  obtain ⟨e2, he2, hk2⟩ := Option.map_eq_some'.mp h2
  obtain ⟨e3, he3, hk3⟩ := Option.map_eq_some'.mp h3
  unfold loopReverse
  rw [he1, he2]
  simp [pageReverse, he3, hk1, hk2, hk3]

/-- C6: if the boundary key — first key for `Insertion`, last key for
`ReverseInsertion` — does not change during execution (the rest of the
store may, under concurrent appends: the code compares only the key at
the re-read), the optimistic retry loop returns on its first iteration
with the page of the store as read at scan time; and in general the
loop returns a page only at an iteration whose re-read boundary key
equals the snapshotted one, the page being the window scan computed
from that key. -/
theorem c6_optimistic_retry (store : Nat → EventStore) (page fuel i : Nat) :
    ((∀ n, (store n).first.map (·.1) = (store 0).first.map (·.1)) →
      (store 0).entries ≠ [] →
      loopInsertion store page 1 i =
        some (pageInsertion (store (3 * i + 2)) page)) ∧
    ((∀ n, (store n).last.map (·.1) = (store 0).last.map (·.1)) →
      (store 0).entries ≠ [] →
      loopReverse store page 1 i =
        some (pageReverse (store (3 * i + 2)) page)) ∧
    (∀ r, loopInsertion store page fuel i = some r →
      ∃ j e, i ≤ j ∧ (store (3 * j)).first = some e ∧
        ((store (3 * j + 1)).first.map (·.1)) = some e.1 ∧
        r = (store (3 * j + 2)).range (insertionWindow e.1 page).1
              (insertionWindow e.1 page).2) ∧
    (∀ r, loopReverse store page fuel i = some r →
      ∃ j e, i ≤ j ∧ (store (3 * j)).last = some e ∧
        ((store (3 * j + 1)).last.map (·.1)) = some e.1 ∧
        r = (store (3 * j + 2)).range (reverseWindow e.1 page).1
              (reverseWindow e.1 page).2) :=
  ⟨fun hc hne => loopInsertion_stable store hc hne page i,
   fun hc hne => loopReverse_stable store hc hne page i,
   fun r h => loopInsertion_sound store page fuel i r h,
   fun r h => loopReverse_sound store page fuel i r h⟩

/-- C6 witness: against `growStore` — which gains a second event between
the boundary snapshot and the scan, keeping only its first key fixed —
the `Insertion` loop still returns on its first iteration, yielding the
grown store's page; the `ReverseInsertion` loop does so against the
constant one-event store. -/
theorem c6_witness :
    loopInsertion growStore 0 1 0 = some (pageInsertion twoStore 0) ∧
    loopReverse (fun _ => oneStore) 0 1 0 = some (pageReverse oneStore 0) :=
  ⟨(c6_optimistic_retry growStore 0 1 0).1
    (fun n => by cases n <;> rfl) (by decide),
   (c6_optimistic_retry (fun _ => oneStore) 0 1 0).2.1
    (fun _ => rfl) (by decide)⟩

/-- `mapMOption` succeeds when every element does. -/
theorem mapMOption_isSome {A B : Type} (f : A → Option B) :
    ∀ l : List A, (∀ a ∈ l, (f a).isSome) → (mapMOption f l).isSome
  | [], _ => by simp [mapMOption]
  | a :: l, h => by
    have ha : (f a).isSome := h a (List.mem_cons_self a l)
    obtain ⟨b, hb⟩ := Option.isSome_iff_exists.mp ha
    have hl := mapMOption_isSome f l fun x hx => h x (List.mem_cons_of_mem a hx)
    obtain ⟨bs, hbs⟩ := Option.isSome_iff_exists.mp hl
    simp [mapMOption, hb, hbs]

/-- `mapMOption` fails (panics) as soon as one element does. -/
theorem mapMOption_none {A B : Type} (f : A → Option B) :
    ∀ l : List A, (∃ a ∈ l, f a = none) → mapMOption f l = none
  | [], h => by simp at h
  | a :: l, h => by
    rcases h with ⟨x, hx, hfx⟩
    rcases List.mem_cons.mp hx with rfl | hx'
    · simp [mapMOption, hfx]
    · have hrec := mapMOption_none f l ⟨x, hx', hfx⟩
      cases hfa : f a with
      | none => simp [mapMOption, hfa]
      | some b => simp [mapMOption, hfa, hrec]

/-- C8: the list query is total exactly under the precondition that the
scanned boundary key parses as RFC3339 and every value in the scanned
range deserializes as `DbValue` JSON: then it returns a response; a
boundary key that fails `OffsetDateTime::parse(..).unwrap()` or a value
that fails `serde_json::from_str(..).unwrap()` inside the scanned range
makes `execute_announcements`/`parse_database_entry` panic (modelled
`none`) instead of producing an error response. -/
theorem c8_totality_precondition (parseTs : String → Option Ts)
    (fmtTs : Ts → String) (parseVal : String → Option DbValue)
    (oracles : List (AssetPair × StrEntries)) (filters : Filters)
    (store : StrEntries)
    (hlk : strLookupOracle oracles filters.assetPair = some store)
    (hne : store ≠ []) (e0 : String × String)
    (hb : rawBoundary store filters.sortBy = some e0) :
    (parseTs e0.1 = none →
      executeAnnouncementsRaw parseTs fmtTs parseVal oracles filters = none) ∧
    (∀ t0, parseTs e0.1 = some t0 →
      ((∀ e ∈ rawRange store
          (fmtTs (rawWindow t0 filters.page filters.sortBy).1)
          (fmtTs (rawWindow t0 filters.page filters.sortBy).2),
          (parseVal e.2).isSome) →
        (executeAnnouncementsRaw parseTs fmtTs parseVal oracles
          filters).isSome) ∧
      ((∃ e ∈ rawRange store
          (fmtTs (rawWindow t0 filters.page filters.sortBy).1)
          (fmtTs (rawWindow t0 filters.page filters.sortBy).2),
          parseVal e.2 = none) →
        executeAnnouncementsRaw parseTs fmtTs parseVal oracles
          filters = none)) := by
  have hempty : store.isEmpty = false := by
    simpa [List.isEmpty_iff] using hne
  cases hsort : filters.sortBy with
  | insertion =>
    rw [hsort] at hb
    simp only [rawBoundary] at hb
    constructor
    · intro hpn
      simp only [executeAnnouncementsRaw, hlk, hempty, hsort, hb, hpn,
        Bool.false_eq_true, if_false]
    · intro t0 hp
      constructor
      · intro hall
        have hm := mapMOption_isSome
          (fun e => (parseVal e.2).map
            (rawParseDatabaseEntry filters.assetPair e.1))
          (rawRange store (fmtTs (t0 + days (startOffset filters.page)))
            (fmtTs (t0 + days (startOffset filters.page) + days PAGE_SIZE)))
          (by
            intro e he
            have := hall e (by simpa [rawWindow, hsort] using he)
            simpa [Option.isSome_map] using this)
        obtain ⟨evs, hevs⟩ := Option.isSome_iff_exists.mp hm
        simp only [executeAnnouncementsRaw, hlk, hempty, hsort, hb, hp, hevs,
          Bool.false_eq_true, if_false]
        rfl
      · intro hex
        have hm := mapMOption_none
          (fun e => (parseVal e.2).map
            (rawParseDatabaseEntry filters.assetPair e.1))
          (rawRange store (fmtTs (t0 + days (startOffset filters.page)))
            (fmtTs (t0 + days (startOffset filters.page) + days PAGE_SIZE)))
          (by
            obtain ⟨e, he, hpe⟩ := hex
            exact ⟨e, by simpa [rawWindow, hsort] using he, by simp [hpe]⟩)
        simp only [executeAnnouncementsRaw, hlk, hempty, hsort, hb, hp, hm,
          Bool.false_eq_true, if_false]
  | reverseInsertion =>
    rw [hsort] at hb
    simp only [rawBoundary] at hb
    constructor
    · intro hpn
      simp only [executeAnnouncementsRaw, hlk, hempty, hsort, hb, hpn,
        Bool.false_eq_true, if_false]
    · intro t0 hp
      constructor
      · intro hall
        have hm := mapMOption_isSome
          (fun e => (parseVal e.2).map
            (rawParseDatabaseEntry filters.assetPair e.1))
          (rawRange store
            (fmtTs (t0 - days (startOffset filters.page) - days PAGE_SIZE))
            (fmtTs (t0 - days (startOffset filters.page))))
          (by
            intro e he
            have := hall e (by simpa [rawWindow, hsort] using he)
            simpa [Option.isSome_map] using this)
        obtain ⟨evs, hevs⟩ := Option.isSome_iff_exists.mp hm
        simp only [executeAnnouncementsRaw, hlk, hempty, hsort, hb, hp, hevs,
          Bool.false_eq_true, if_false]
        rfl
      · intro hex
        have hm := mapMOption_none
          (fun e => (parseVal e.2).map
            (rawParseDatabaseEntry filters.assetPair e.1))
          (rawRange store
            (fmtTs (t0 - days (startOffset filters.page) - days PAGE_SIZE))
            (fmtTs (t0 - days (startOffset filters.page))))
          (by
            obtain ⟨e, he, hpe⟩ := hex
            exact ⟨e, by simpa [rawWindow, hsort] using he, by simp [hpe]⟩)
        simp only [executeAnnouncementsRaw, hlk, hempty, hsort, hb, hp, hm,
          Bool.false_eq_true, if_false]

/-- C8 witness: with concrete codecs under which the boundary key and
the single scanned value are valid, the raw list query returns a
response. -/
theorem c8_witness :
    (executeAnnouncementsRaw exParse exFmt exParseVal strOracles
      insFilters).isSome :=
  ((c8_totality_precondition exParse exFmt exParseVal strOracles insFilters
      strOne rfl (by decide) (keyZ, "good-json") rfl).2 0 (by decide)).1
    (by decide)
